import Mathlib

/-!
Shallow embedding of the tic-tac-toe engine from
`oop_projects/tictactoe` (multi-file variant: `board.py`, `player.py`,
`game.py`; one-script variant: `revised_tictactoe_onescript.py`), with
proofs of the specified properties.

Conventions of the embedding:
* Python `None`/`" "` cells are `Option Symb` with `none` for empty.
* Python exceptions (`ValueError`, `IndexError`, `RuntimeError`) are the
  spec's error kinds (`Err`), and raising functions return `Except Err _`.
* Mutation is explicit state passing: a method that mutates its object
  returns the new object.
* Python `int` coordinates are `Int`; the code bounds-validates them to
  `0..2` before indexing.
-/

namespace TTT

/-- The two mark symbols `"X"` and `"O"`. -/
inductive Symb : Type
  | X : Symb
  | O : Symb
deriving DecidableEq, Repr, Fintype

/-- The string a symbol is stored and compared as in the Python code. -/
def Symb.str : Symb → String
  | .X => "X"
  | .O => "O"

/-- Parse a Python string against `VALID_SYMBOLS = {"X", "O"}`. -/
def parseSymb (s : String) : Option Symb :=
  if s = "X" then some .X else if s = "O" then some .O else none

/-- A cell holds `None` (empty) or a valid symbol. -/
abbrev Cell := Option Symb

/-- The 3x3 grid (`Board._grid` in `board.py`). -/
abbrev Grid := Fin 3 → Fin 3 → Cell

instance : DecidableEq Grid := fun _ _ => Fintype.decidablePiFintype _ _

instance {ε α : Type} [DecidableEq ε] [DecidableEq α] : DecidableEq (Except ε α) := fun a b =>
  match a, b with
  | .ok x, .ok y => decidable_of_iff (x = y) (by simp)
  | .error x, .error y => decidable_of_iff (x = y) (by simp)
  | .ok _, .error _ => .isFalse (by simp)
  | .error _, .ok _ => .isFalse (by simp)

/-- Error kinds of the spec, mapped from the raise sites of the code. -/
inductive Err : Type
  | CoordinateOutOfRange
  | InvalidSymbol
  | CellOccupied
  | GameAlreadyOver
  | InvalidPlayerSetup
  | NoMovesAvailable
deriving DecidableEq, Repr

/-- Convert a bounds-validated coordinate to an index. Used only where
`0 ≤ i < 3` has been checked, where it is the identity embedding. -/
def idx (i : Int) : Fin 3 := ⟨i.toNat % 3, Nat.mod_lt _ (by decide)⟩

/-- A fresh grid: `Board.__init__` fills the grid with `None`. -/
def Board.new : Grid := fun _ _ => none

/-- Writing one cell of the grid (`self._grid[row][col] = v`). -/
def updateGrid (g : Grid) (r c : Fin 3) (v : Cell) : Grid :=
  fun r' c' => if r' = r ∧ c' = c then v else g r' c'

/-- `Board._validate_coords`: `0 <= row < 3 and 0 <= col < 3` or
`ValueError` (`CoordinateOutOfRange`). -/
def validate_coords (row col : Int) : Except Err Unit :=
  if 0 ≤ row ∧ row < 3 ∧ 0 ≤ col ∧ col < 3 then .ok () else .error .CoordinateOutOfRange

/-- `Board._validate_symbol`: membership in `VALID_SYMBOLS` or
`ValueError` (`InvalidSymbol`). -/
def validate_symbol (symbol : String) : Except Err Unit :=
  match parseSymb symbol with
  | some _ => .ok ()
  | none => .error .InvalidSymbol

/-- `Board.is_cell_empty`: validates coordinates, then reads the cell. -/
def is_cell_empty (g : Grid) (row col : Int) : Except Err Bool := do
  validate_coords row col
  pure (decide (g (idx row) (idx col) = none))

/-- `Board.place_mark`: validate coordinates, validate the symbol, fail
on an occupied cell, else write the cell. -/
def place_mark (g : Grid) (row col : Int) (symbol : String) : Except Err Grid := do
  validate_coords row col
  validate_symbol symbol
  let empty ← is_cell_empty g row col
  if empty then
    pure (updateGrid g (idx row) (idx col) (parseSymb symbol))
  else
    .error .CellOccupied

/-- `Board.available_moves`: row-major scan collecting empty cells. -/
def available_moves (g : Grid) : List (Fin 3 × Fin 3) :=
  (List.finRange 3).flatMap fun r =>
    (List.finRange 3).filterMap fun c =>
      if g r c = none then some (r, c) else none

/-- `Board.is_full`: every cell is occupied. -/
def is_full (g : Grid) : Bool :=
  (List.finRange 3).all fun r => (List.finRange 3).all fun c => decide (g r c ≠ none)

/-- `Board.reset`: the loop writing `None` into every cell. -/
def Board.reset (g : Grid) : Grid :=
  (List.finRange 3).foldl
    (fun acc r => (List.finRange 3).foldl (fun acc2 c => updateGrid acc2 r c none) acc) g

/-- Printable form of one cell: `self._grid[r][c] or " "`. -/
def cellGlyph (c : Cell) : String :=
  match c with
  | none => " "
  | some s => s.str

/-- `Board.__str__`: rows of cells joined by `" | "`, rows joined by the
separator line. -/
def renderBoard (g : Grid) : String :=
  String.intercalate "\n---+---+---\n"
    ((List.finRange 3).map fun r =>
      " " ++ String.intercalate " | " ((List.finRange 3).map fun c => cellGlyph (g r c)) ++ " ")

/-! ### Player (`player.py`) -/

/-- Uppercase every character: Python `str.upper()` restricted to the
ASCII letters the symbols use. -/
def pyUpper (s : List Char) : List Char := s.map Char.toUpper

/-- Python `str.strip()`: drop leading and trailing whitespace. -/
def pyStrip (s : List Char) : List Char :=
  ((s.dropWhile Char.isWhitespace).reverse.dropWhile Char.isWhitespace).reverse

/-- Parse a normalized character string against `VALID_SYMBOLS`. -/
def parseSymbChars (s : List Char) : Option Symb :=
  if s = ['X'] then some .X else if s = ['O'] then some .O else none

/-- A constructed player: name plus its (already validated) symbol. -/
structure Player : Type where
  name : String
  symbol : Symb
deriving DecidableEq, Repr

/-- `Player.__init__` in `player.py`: `symbol = symbol.upper().strip()`,
then membership in `Board.VALID_SYMBOLS` or `ValueError`
(`InvalidSymbol`). -/
def Player.init (name : String) (symbol : List Char) : Except Err Player :=
  match parseSymbChars (pyStrip (pyUpper symbol)) with
  | some s => .ok ⟨name, s⟩
  | none => .error .InvalidSymbol

/-- `Player.make_move`: delegate to `board.place_mark` with this
player's symbol. -/
def Player.make_move (p : Player) (g : Grid) (row col : Int) : Except Err Grid :=
  place_mark g row col p.symbol.str

/-! ### Game engine (`game.py`) -/

/-- `GameState` enum of `game.py`. -/
inductive GameState : Type
  | IN_PROGRESS
  | WIN
  | DRAW
deriving DecidableEq, Repr

/-- The engine state: board, the two players (X-seat, O-seat), whose
turn it is, the status and the recorded winner symbol. -/
structure Game : Type where
  board : Grid
  players : Player × Player
  turn_idx : Fin 2
  state : GameState
  winner_symbol : Option Symb
deriving DecidableEq

/-- `Game.WIN_LINES`: the eight fixed lines, in the code's order
(rows, then columns, then the two diagonals). -/
def WIN_LINES : List ((Fin 3 × Fin 3) × (Fin 3 × Fin 3) × (Fin 3 × Fin 3)) :=
  [ ((0,0),(0,1),(0,2)),
    ((1,0),(1,1),(1,2)),
    ((2,0),(2,1),(2,2)),
    ((0,0),(1,0),(2,0)),
    ((0,1),(1,1),(2,1)),
    ((0,2),(1,2),(2,2)),
    ((0,0),(1,1),(2,2)),
    ((0,2),(1,1),(2,0)) ]

/-- One loop iteration of `Game._find_winner_symbol`: `s1` if
`s1 is not None and s1 == s2 == s3`, else nothing. -/
def lineWinner (g : Grid) (l : (Fin 3 × Fin 3) × (Fin 3 × Fin 3) × (Fin 3 × Fin 3)) :
    Option Symb :=
  match g l.1.1 l.1.2 with
  | none => none
  | some s1 =>
    if g l.2.1.1 l.2.1.2 = some s1 ∧ g l.2.2.1 l.2.2.2 = some s1 then some s1 else none

/-- `Game._find_winner_symbol`: first line (in `WIN_LINES` order) whose
three cells hold the same non-empty symbol. -/
def find_winner_symbol (g : Grid) : Option Symb :=
  WIN_LINES.findSome? (lineWinner g)

/-- `Game.__init__`: the two players must hold `"X"` and `"O"`
respectively (`InvalidPlayerSetup` otherwise); X starts, state is
`IN_PROGRESS`, no winner. -/
def Game.init (player_x player_o : Player) (board : Grid) : Except Err Game :=
  if player_x.symbol = .X ∧ player_o.symbol = .O then
    .ok ⟨board, (player_x, player_o), 0, .IN_PROGRESS, none⟩
  else
    .error .InvalidPlayerSetup

/-- `Game.current_player`: `self._players[self._turn_idx]`. -/
def current_player (g : Game) : Player :=
  if g.turn_idx = 0 then g.players.1 else g.players.2

/-- `Game._swap_turn`: `self._turn_idx ^= 1`. -/
def swap_turn (g : Game) : Game :=
  { g with turn_idx := if g.turn_idx = 0 then 1 else 0 }

/-- `Game._update_state_after_move`: winner first, then full-board
draw, else unchanged. -/
def update_state_after_move (g : Game) : Game :=
  match find_winner_symbol g.board with
  | some w => { g with state := .WIN, winner_symbol := some w }
  | none => if is_full g.board then { g with state := .DRAW } else g

/-- `Game.apply_move`: fail if the game is over, delegate placement to
the current player (propagating its failure), update the state, and
swap the turn only while still in progress. -/
def apply_move (g : Game) (row col : Int) : Except Err Game :=
  if g.state ≠ .IN_PROGRESS then
    .error .GameAlreadyOver
  else do
    let b ← (current_player g).make_move g.board row col
    let g2 := update_state_after_move { g with board := b }
    if g2.state = .IN_PROGRESS then pure (swap_turn g2) else pure g2

/-- `Game.legal_moves`: forwards to `Board.available_moves`. -/
def legal_moves (g : Game) : List (Fin 3 × Fin 3) :=
  available_moves g.board

/-- `Game.reset`: clear the board, X to move, in progress, no winner. -/
def Game.reset (g : Game) : Game :=
  { g with
    board := Board.reset g.board
    turn_idx := 0
    state := .IN_PROGRESS
    winner_symbol := none }

/-! ### One-script variant (`revised_tictactoe_onescript.py`)

Board cells there are the strings `" "`, `"X"`, `"O"`; the empty cell
`" "` is `none` here. `place_mark` raises on a bad symbol or bad
coordinates but returns `False` (without mutating) on an occupied cell;
`Player.make_move` converts the raises into `False` as well. -/

/-- `Board.place_mark` of the one-script variant: symbol check first
(`ValueError`), then bounds (`IndexError`), then occupied → `False`,
else write and return `True`. -/
def OBoard.place_mark (g : Grid) (row col : Int) (symbol : String) :
    Except Err (Bool × Grid) :=
  match parseSymb symbol with
  | none => .error .InvalidSymbol
  | some s =>
    if ¬(0 ≤ row ∧ row < 3 ∧ 0 ≤ col ∧ col < 3) then
      .error .CoordinateOutOfRange
    else if g (idx row) (idx col) ≠ none then
      .ok (false, g)
    else
      .ok (true, updateGrid g (idx row) (idx col) (some s))

/-- `Board.is_full` of the one-script variant. -/
def OBoard.is_full (g : Grid) : Bool :=
  (List.finRange 3).all fun r => (List.finRange 3).all fun c => decide (g r c ≠ none)

/-- A one-script `Player` after `__post_init__` validation. -/
structure OPlayer : Type where
  name : String
  symbol : Symb
deriving DecidableEq, Repr

/-- One-script `Player` construction: `__post_init__` requires the
symbol to be exactly `"X"` or `"O"` (no normalization). -/
def OPlayer.create (name symbol : String) : Except Err OPlayer :=
  match parseSymb symbol with
  | some s => .ok ⟨name, s⟩
  | none => .error .InvalidSymbol

/-- One-script `Player.make_move`: `place_mark` with `try/except`
turning `IndexError`/`ValueError` into `False`. -/
def OPlayer.make_move (p : OPlayer) (g : Grid) (row col : Int) : Bool × Grid :=
  match OBoard.place_mark g row col p.symbol.str with
  | .ok r => r
  | .error _ => (false, g)

/-- The `GameEngine` dataclass: two players, a board, the current
index, the winner (a player, not just a symbol), and the draw flag. -/
structure OEngine : Type where
  player_one : OPlayer
  player_two : OPlayer
  board : Grid
  current_index : Fin 2
  winner : Option OPlayer
  is_draw : Bool
deriving DecidableEq, Repr

/-- Constructing a `GameEngine` from two players: the dataclass fields
default to a fresh board, index 0, no winner, no draw. No validation
of the player pair is performed. -/
def OEngine.create (player_one player_two : OPlayer) : OEngine :=
  ⟨player_one, player_two, Board.new, 0, none, false⟩

/-- `GameEngine.current_player`. -/
def OEngine.current_player (e : OEngine) : OPlayer :=
  if e.current_index = 0 then e.player_one else e.player_two

/-- `GameEngine._swap_turn`: `current_index = 1 - current_index`. -/
def OEngine.swap_turn (e : OEngine) : OEngine :=
  { e with current_index := ⟨1 - e.current_index.val, by omega⟩ }

/-- The line decomposition of `GameEngine._check_winner`: the three
rows, the three columns, the main diagonal, the anti-diagonal. -/
def oLines (g : Grid) : List (List Cell) :=
  ((List.finRange 3).map fun r => (List.finRange 3).map fun c => g r c) ++
  ((List.finRange 3).map fun c => (List.finRange 3).map fun r => g r c) ++
  [(List.finRange 3).map fun i => g i i] ++
  [(List.finRange 3).map fun i => g i ⟨2 - i.val, by omega⟩]

/-- `GameEngine._check_winner`: some line is uniformly `symbol`. -/
def check_winner (g : Grid) (s : Symb) : Bool :=
  (oLines g).any fun line => line.all fun cell => decide (cell = some s)

/-- `GameEngine.play_turn`: `False` if the game is over or the
placement failed (state unchanged), else update the board and evaluate
win, then draw, else swap the turn; returns `True` on success. -/
def OEngine.play_turn (e : OEngine) (row col : Int) : Bool × OEngine :=
  if e.winner ≠ none ∨ e.is_draw then
    (false, e)
  else
    match (e.current_player).make_move e.board row col with
    | (false, b) => (false, { e with board := b })
    | (true, b) =>
      let e2 := { e with board := b }
      if check_winner b (e.current_player).symbol then
        (true, { e2 with winner := some (e.current_player) })
      else if OBoard.is_full b then
        (true, { e2 with is_draw := true })
      else
        (true, e2.swap_turn)

/-- The comprehension inside `ComputerPlayer.choose_move` collecting
the free cells in row-major order. -/
def computer_available (g : Grid) : List (Fin 3 × Fin 3) :=
  (List.finRange 3).flatMap fun r =>
    (List.finRange 3).filterMap fun c =>
      if g r c = none then some (r, c) else none

/-- `ComputerPlayer.choose_move`: `RuntimeError` (`NoMovesAvailable`)
when no cell is free, else `random.choice(available)`, modelled by an
arbitrary index `k` into the nonempty list of free cells. -/
def choose_move (g : Grid) (k : Nat) : Except Err (Fin 3 × Fin 3) :=
  let available := computer_available g
  if h : available = [] then
    .error .NoMovesAvailable
  else
    .ok (available.get ⟨k % available.length,
      Nat.mod_lt _ (List.length_pos.mpr h)⟩)

/-! ### Specification-side definitions, compared against the code -/

/-- The nine coordinates in row-major order (row 0 first, each row
scanned column 0 to 2), as the spec describes the scan. -/
def rowMajorCoords : List (Fin 3 × Fin 3) :=
  [(0,0),(0,1),(0,2),(1,0),(1,1),(1,2),(2,0),(2,1),(2,2)]

/-! ### Concrete values used to witness the theorems -/

/-- A concrete X-seat player. -/
def alice : Player := ⟨"Alice", .X⟩

/-- A concrete O-seat player. -/
def bob : Player := ⟨"Bob", .O⟩

/-- A game already won by X (for the terminal-state theorems). -/
def wonGame : Game :=
  ⟨updateGrid (updateGrid (updateGrid Board.new 0 0 (some .X)) 0 1 (some .X)) 0 2 (some .X),
   (alice, bob), 0, .WIN, some .X⟩

/-- One-script players with the same seats. -/
def oAlice : OPlayer := ⟨"Alice", .X⟩

/-- One-script O-seat player. -/
def oBob : OPlayer := ⟨"Bob", .O⟩

/-- A one-script engine already in the drawn state. -/
def drawnEngine : OEngine := ⟨oAlice, oBob, Board.new, 0, none, true⟩

/-- The freshly constructed game between `alice` and `bob`. -/
def freshGame : Game := ⟨Board.new, (alice, bob), 0, .IN_PROGRESS, none⟩

/-- The game after X's first move at (0,0). -/
def afterFirstMove : Game :=
  ⟨updateGrid Board.new 0 0 (some .X), (alice, bob), 1, .IN_PROGRESS, none⟩

/-- A second X-holding player, for the pair-validation claims. -/
def carol : Player := ⟨"Carol", .X⟩

/-- Another X-holding player. -/
def dan : Player := ⟨"Dan", .X⟩

/-- A board with every cell occupied. -/
def fullGrid : Grid := fun _ _ => some .X

/-- Demo game: after O's reply at (1,0). -/
def demoG2 : Game :=
  ⟨updateGrid afterFirstMove.board 1 0 (some .O), (alice, bob), 0, .IN_PROGRESS, none⟩

/-- Demo game: after X at (0,1). -/
def demoG3 : Game :=
  ⟨updateGrid demoG2.board 0 1 (some .X), (alice, bob), 1, .IN_PROGRESS, none⟩

/-- Demo game: after O at (1,1). -/
def demoG4 : Game :=
  ⟨updateGrid demoG3.board 1 1 (some .O), (alice, bob), 0, .IN_PROGRESS, none⟩

/-- Demo game: X completes the top row and wins. -/
def demoWon : Game :=
  ⟨updateGrid demoG4.board 0 2 (some .X), (alice, bob), 0, .WIN, some .X⟩

/-- Engine states reachable from a freshly constructed engine
(`Game(player_x, player_o)` with its default fresh board) by any
sequence of `apply_move` calls. -/
inductive Reachable : Game → Prop
  | init : ∀ px po g, Game.init px po Board.new = .ok g → Reachable g
  | step : ∀ g row col g', Reachable g → apply_move g row col = .ok g' → Reachable g'

/-- A line of `WIN_LINES` is uniformly marked with symbol `s`. -/
def uniformLine (g : Grid) (l : (Fin 3 × Fin 3) × (Fin 3 × Fin 3) × (Fin 3 × Fin 3))
    (s : Symb) : Prop :=
  g l.1.1 l.1.2 = some s ∧ g l.2.1.1 l.2.1.2 = some s ∧ g l.2.2.1 l.2.2.2 = some s

instance (g l s) : Decidable (uniformLine g l s) := by unfold uniformLine; infer_instance

/-! ## Helper lemmas -/

theorem updateGrid_self (g : Grid) (r c : Fin 3) (v : Cell) : updateGrid g r c v r c = v := by
  simp [updateGrid]

theorem updateGrid_ne (g : Grid) (r c : Fin 3) (v : Cell) (r' c' : Fin 3)
    (h : ¬(r' = r ∧ c' = c)) : updateGrid g r c v r' c' = g r' c' := by
  simp only [updateGrid, if_neg h]

theorem parseSymb_str (s : Symb) : parseSymb s.str = some s := by
  cases s <;> rfl

theorem parseSymb_ne_none_iff (symbol : String) :
    parseSymb symbol ≠ none ↔ symbol = "X" ∨ symbol = "O" := by
  unfold parseSymb
  by_cases hx : symbol = "X" <;> by_cases ho : symbol = "O" <;> simp [hx, ho]

theorem place_mark_oob (g : Grid) (row col : Int) (symbol : String)
    (h : ¬(0 ≤ row ∧ row < 3 ∧ 0 ≤ col ∧ col < 3)) :
    place_mark g row col symbol = .error .CoordinateOutOfRange := by
  simp [place_mark, validate_coords, h, Except.bind, bind]

theorem place_mark_badsym (g : Grid) (row col : Int) (symbol : String)
    (hc : 0 ≤ row ∧ row < 3 ∧ 0 ≤ col ∧ col < 3) (hs : parseSymb symbol = none) :
    place_mark g row col symbol = .error .InvalidSymbol := by
  simp [place_mark, validate_coords, validate_symbol, hc, hs, Except.bind, bind]

theorem place_mark_occupied (g : Grid) (row col : Int) (symbol : String) (s : Symb)
    (hc : 0 ≤ row ∧ row < 3 ∧ 0 ≤ col ∧ col < 3) (hs : parseSymb symbol = some s)
    (he : g (idx row) (idx col) ≠ none) :
    place_mark g row col symbol = .error .CellOccupied := by
  simp [place_mark, validate_coords, validate_symbol, is_cell_empty, hc, hs, he,
    Except.bind, bind, pure, Except.pure]

theorem place_mark_empty (g : Grid) (row col : Int) (symbol : String) (s : Symb)
    (hc : 0 ≤ row ∧ row < 3 ∧ 0 ≤ col ∧ col < 3) (hs : parseSymb symbol = some s)
    (he : g (idx row) (idx col) = none) :
    place_mark g row col symbol = .ok (updateGrid g (idx row) (idx col) (some s)) := by
  simp [place_mark, validate_coords, validate_symbol, is_cell_empty, hc, hs, he,
    Except.bind, bind, pure, Except.pure]

theorem place_mark_ok_iff (g : Grid) (row col : Int) (symbol : String) (g' : Grid) :
    place_mark g row col symbol = .ok g' ↔
      (0 ≤ row ∧ row < 3 ∧ 0 ≤ col ∧ col < 3) ∧ parseSymb symbol ≠ none ∧
      g (idx row) (idx col) = none ∧
      g' = updateGrid g (idx row) (idx col) (parseSymb symbol) := by
  by_cases hc : 0 ≤ row ∧ row < 3 ∧ 0 ≤ col ∧ col < 3
  · by_cases hs : parseSymb symbol = none
    · rw [place_mark_badsym g row col symbol hc hs]
      simp [hs]
    · rcases Option.ne_none_iff_exists'.mp hs with ⟨s, hsx⟩
      by_cases he : g (idx row) (idx col) = none
      · rw [place_mark_empty g row col symbol s hc hsx he, hsx]
        simp [hc, hs, he, eq_comm]
      · rw [place_mark_occupied g row col symbol s hc hsx he]
        simp [he]
  · rw [place_mark_oob g row col symbol hc]
    simp [hc]


theorem filter_flatMap' {α β : Type} (l : List α) (f : α → List β) (p : β → Bool) :
    (l.flatMap f).filter p = l.flatMap fun a => (f a).filter p := by
  induction l with
  | nil => rfl
  | cons a t ih => simp [List.flatMap_cons, List.filter_append, ih]

theorem filterMap_row (g : Grid) (r : Fin 3) (l : List (Fin 3)) :
    (l.filterMap fun c => if g r c = none then some (r, c) else none) =
      (l.map fun c => (r, c)).filter fun p => decide (g p.1 p.2 = none) := by
  induction l with
  | nil => rfl
  | cons c t ih =>
    by_cases h : g r c = none <;> simp [h, ih]

/-! ## Claim theorems -/

/-- C3: `place_mark(row, col, symbol)` succeeds and sets exactly the
target cell to the symbol iff the coordinates are in `[0,3)`, the symbol
is `"X"` or `"O"`, and the target cell is empty; each failure case
(out-of-range coordinate, invalid symbol, occupied cell) raises its
corresponding error and, being an exception, leaves the board unchanged;
the boolean-convention variant's occupied case returns `false` with the
grid unchanged. -/
theorem place_mark_contract (g : Grid) (row col : Int) (symbol : String) :
    (∀ g', place_mark g row col symbol = .ok g' →
      (0 ≤ row ∧ row < 3 ∧ 0 ≤ col ∧ col < 3) ∧ (symbol = "X" ∨ symbol = "O") ∧
      g (idx row) (idx col) = none ∧
      g' (idx row) (idx col) = parseSymb symbol ∧
      ∀ r c : Fin 3, ¬(r = idx row ∧ c = idx col) → g' r c = g r c) ∧
    ((0 ≤ row ∧ row < 3 ∧ 0 ≤ col ∧ col < 3) → (symbol = "X" ∨ symbol = "O") →
      g (idx row) (idx col) = none →
      place_mark g row col symbol = .ok (updateGrid g (idx row) (idx col) (parseSymb symbol))) ∧
    (¬(0 ≤ row ∧ row < 3 ∧ 0 ≤ col ∧ col < 3) →
      place_mark g row col symbol = .error .CoordinateOutOfRange) ∧
    ((0 ≤ row ∧ row < 3 ∧ 0 ≤ col ∧ col < 3) → ¬(symbol = "X" ∨ symbol = "O") →
      place_mark g row col symbol = .error .InvalidSymbol) ∧
    ((0 ≤ row ∧ row < 3 ∧ 0 ≤ col ∧ col < 3) → (symbol = "X" ∨ symbol = "O") →
      g (idx row) (idx col) ≠ none →
      place_mark g row col symbol = .error .CellOccupied) ∧
    (∀ b, OBoard.place_mark g row col symbol = .ok (false, b) → b = g) := by
  refine ⟨?_, ?_, ?_, ?_, ?_, ?_⟩
  · intro g' h
    rcases (place_mark_ok_iff g row col symbol g').mp h with ⟨hc, hs, he, rfl⟩
    exact ⟨hc, (parseSymb_ne_none_iff symbol).mp hs, he,
      updateGrid_self .., fun r c hne => updateGrid_ne _ _ _ _ _ _ hne⟩
  · intro hc hs he
    rcases Option.ne_none_iff_exists'.mp ((parseSymb_ne_none_iff symbol).mpr hs) with ⟨s, hsx⟩
    rw [place_mark_empty g row col symbol s hc hsx he, hsx]
  · exact place_mark_oob g row col symbol
  · intro hc hs
    exact place_mark_badsym g row col symbol hc
      (by by_contra hne; exact hs ((parseSymb_ne_none_iff symbol).mp hne))
  · intro hc hs he
    rcases Option.ne_none_iff_exists'.mp ((parseSymb_ne_none_iff symbol).mpr hs) with ⟨s, hsx⟩
    exact place_mark_occupied g row col symbol s hc hsx he
  · intro b h
    unfold OBoard.place_mark at h
    rcases hp : parseSymb symbol with _ | s <;> rw [hp] at h
    · simp at h
    · by_cases hcb : 0 ≤ row ∧ row < 3 ∧ 0 ≤ col ∧ col < 3
      · simp only [hcb, not_true_eq_false, if_false, if_neg] at h
        by_cases he : g (idx row) (idx col) = none
        · simp [he] at h
        · simp [he] at h
          exact h.symm
      · simp [hcb] at h


theorem place_mark_contract_witness :
    place_mark Board.new 5 0 "X" = .error .CoordinateOutOfRange :=
  (place_mark_contract Board.new 5 0 "X").2.2.1 (by decide)

/-- C6: `available_moves` returns exactly the empty-cell coordinates in
row-major order, and its length plus the number of occupied cells is 9. -/
theorem available_moves_spec (g : Grid) :
    available_moves g = rowMajorCoords.filter (fun p => decide (g p.1 p.2 = none)) ∧
    (available_moves g).length +
      (rowMajorCoords.filter fun p => decide (g p.1 p.2 ≠ none)).length = 9 := by
  have hmain : available_moves g =
      rowMajorCoords.filter (fun p => decide (g p.1 p.2 = none)) := by
    unfold available_moves
    calc (List.finRange 3).flatMap (fun r => (List.finRange 3).filterMap fun c =>
            if g r c = none then some (r, c) else none)
        = (List.finRange 3).flatMap (fun r => ((List.finRange 3).map fun c => (r, c)).filter
            fun p => decide (g p.1 p.2 = none)) := by
          exact List.flatMap_congr (fun r _ => filterMap_row g r _)
      _ = ((List.finRange 3).flatMap fun r => (List.finRange 3).map fun c => (r, c)).filter
            (fun p => decide (g p.1 p.2 = none)) := (filter_flatMap' _ _ _).symm
      _ = rowMajorCoords.filter (fun p => decide (g p.1 p.2 = none)) := by
          norm_num [List.finRange, rowMajorCoords]
  refine ⟨hmain, ?_⟩
  rw [hmain]
  have hQ : (rowMajorCoords.filter fun p : Fin 3 × Fin 3 => decide (g p.1 p.2 ≠ none)) =
      rowMajorCoords.filter fun p : Fin 3 × Fin 3 => !(decide (g p.1 p.2 = none)) := by
    apply List.filter_congr
    intro p _
    simp
  rw [hQ]
  exact (List.length_eq_length_filter_add (fun p : Fin 3 × Fin 3 => decide (g p.1 p.2 = none))).symm

theorem lineWinner_eq_some_iff (g : Grid) (l) (s : Symb) :
    lineWinner g l = some s ↔ uniformLine g l s := by
  unfold lineWinner uniformLine
  rcases h1 : g l.1.1 l.1.2 with _ | s1
  · simp
  · by_cases h23 : g l.2.1.1 l.2.1.2 = some s1 ∧ g l.2.2.1 l.2.2.2 = some s1
    · simp only [if_pos h23, Option.some.injEq]
      constructor
      · rintro rfl
        exact ⟨rfl, h23⟩
      · rintro ⟨hs, -, -⟩
        exact hs
    · simp only [if_neg h23]
      constructor
      · intro h
        exact absurd h (by simp)
      · rintro ⟨hs, h2, h3⟩
        obtain rfl : s1 = s := by injection hs
        exact absurd ⟨h2, h3⟩ h23

theorem find_winner_none_iff (g : Grid) :
    find_winner_symbol g = none ↔ ∀ l ∈ WIN_LINES, ∀ s, ¬ uniformLine g l s := by
  unfold find_winner_symbol
  rw [List.findSome?_eq_none_iff]
  constructor
  · intro h l hl s hu
    have := h l hl
    rw [(lineWinner_eq_some_iff g l s).mpr hu] at this
    exact Option.some_ne_none s this
  · intro h l hl
    rcases hw : lineWinner g l with _ | s
    · rfl
    · exact absurd ((lineWinner_eq_some_iff g l s).mp hw) (h l hl s)

theorem find_winner_mem (g : Grid) (s : Symb) (h : find_winner_symbol g = some s) :
    ∃ l ∈ WIN_LINES, uniformLine g l s := by
  rcases List.exists_of_findSome?_eq_some h with ⟨l, hl, hw⟩
  exact ⟨l, hl, (lineWinner_eq_some_iff g l s).mp hw⟩

theorem find_winner_isSome (g : Grid) (l) (s : Symb) (hl : l ∈ WIN_LINES)
    (hu : uniformLine g l s) : ∃ s', find_winner_symbol g = some s' := by
  have : (find_winner_symbol g).isSome := by
    unfold find_winner_symbol
    rw [List.findSome?_isSome_iff]
    exact ⟨l, hl, by rw [(lineWinner_eq_some_iff g l s).mpr hu]; rfl⟩
  exact Option.isSome_iff_exists.mp this

theorem make_move_fields (g : Game) (b : Grid) :
    (update_state_after_move { g with board := b }).board = b ∧
    (update_state_after_move { g with board := b }).players = g.players ∧
    (update_state_after_move { g with board := b }).turn_idx = g.turn_idx := by
  unfold update_state_after_move
  rcases find_winner_symbol b with _ | w
  · simp only []
    split <;> simp
  · simp

theorem apply_move_ok_decomp (g : Game) (row col : Int) (g' : Game)
    (h : apply_move g row col = .ok g') :
    g.state = .IN_PROGRESS ∧ ∃ b, (current_player g).make_move g.board row col = .ok b ∧
      g' = (if (update_state_after_move { g with board := b }).state = .IN_PROGRESS
            then swap_turn (update_state_after_move { g with board := b })
            else update_state_after_move { g with board := b }) := by
  unfold apply_move at h
  by_cases hIP : g.state = .IN_PROGRESS
  · simp only [hIP, ne_eq, not_true_eq_false, if_false, ite_false] at h
    rcases hm : (current_player g).make_move g.board row col with e | b <;> rw [hm] at h
    · simp [Except.bind, bind] at h
    · refine ⟨hIP, b, rfl, ?_⟩
      simp only [Except.bind, bind, pure, Except.pure] at h
      split at h <;> simp_all
  · simp [hIP] at h

/-- C1: after every successful `apply_move`, the engine scans the eight
fixed `WIN_LINES`: if some line is uniformly marked with the (unique)
non-empty symbol `s`, the state becomes `WIN` with winning symbol `s`;
otherwise, a full board gives `DRAW` and a non-full board stays
`IN_PROGRESS`; a full board that contains a completed line yields `WIN`,
never `DRAW`. -/
theorem state_update_after_move (g g' : Game) (row col : Int)
    (hmove : apply_move g row col = .ok g') :
    (∀ s : Symb, (∃ l ∈ WIN_LINES, uniformLine g'.board l s) →
      (∀ s' : Symb, (∃ l ∈ WIN_LINES, uniformLine g'.board l s') → s' = s) →
      g'.state = .WIN ∧ g'.winner_symbol = some s) ∧
    ((∀ l ∈ WIN_LINES, ∀ s, ¬ uniformLine g'.board l s) → is_full g'.board = true →
      g'.state = .DRAW) ∧
    ((∀ l ∈ WIN_LINES, ∀ s, ¬ uniformLine g'.board l s) → is_full g'.board = false →
      g'.state = .IN_PROGRESS) ∧
    (is_full g'.board = true → (∃ s, ∃ l ∈ WIN_LINES, uniformLine g'.board l s) →
      g'.state = .WIN) := by
  rcases apply_move_ok_decomp g row col g' hmove with ⟨hIP, b, hm, hg'⟩
  rcases hw : find_winner_symbol b with _ | w
  · by_cases hf : is_full b = true
    · have hg2 : update_state_after_move { g with board := b } =
          { g with board := b, state := .DRAW } := by
        simp [update_state_after_move, hw, hf]
      rw [hg2] at hg'
      simp only [] at hg'
      have hg'' : g' = { g with board := b, state := .DRAW } := by
        rw [hg']; simp
      subst hg''
      refine ⟨?_, ?_, ?_, ?_⟩
      · rintro s ⟨l, hl, hu⟩ _
        exact absurd hu (find_winner_none_iff b |>.mp hw l hl s)
      · intro _ _
        rfl
      · intro _ hfull
        simp only [] at hfull
        rw [hf] at hfull
        cases hfull
      · rintro _ ⟨s, l, hl, hu⟩
        exact absurd hu (find_winner_none_iff b |>.mp hw l hl s)
    · have hg2 : update_state_after_move { g with board := b } =
          { g with board := b } := by
        simp [update_state_after_move, hw, hf]
      rw [hg2] at hg'
      have hg'' : g' = swap_turn { g with board := b } := by
        rw [hg']; simp [hIP]
      subst hg''
      refine ⟨?_, ?_, ?_, ?_⟩
      · rintro s ⟨l, hl, hu⟩ _
        exact absurd hu (find_winner_none_iff b |>.mp hw l hl s)
      · rintro hnone hfull
        simp only [swap_turn] at hfull
        exact absurd hfull hf
      · intro _ _
        simp [swap_turn, hIP]
      · rintro hfull _
        simp only [swap_turn] at hfull
        exact absurd hfull hf
  · have hg2 : update_state_after_move { g with board := b } =
        { g with board := b, state := .WIN, winner_symbol := some w } := by
      simp [update_state_after_move, hw]
    rw [hg2] at hg'
    have hg'' : g' = { g with board := b, state := .WIN, winner_symbol := some w } := by
      rw [hg']; simp
    subst hg''
    rcases find_winner_mem b w hw with ⟨l, hl, hu⟩
    refine ⟨?_, ?_, ?_, ?_⟩
    · intro s hex huniq
      have hws : w = s := huniq w ⟨l, hl, hu⟩
      exact ⟨rfl, by rw [hws]⟩
    · intro hnone _
      exact absurd hu (hnone l hl w)
    · intro hnone _
      exact absurd hu (hnone l hl w)
    · intro _ _
      rfl

/-- C2: in a terminal state (`WIN` or `DRAW`), `apply_move` always fails
with `GameAlreadyOver` for all coordinates (so no state mutates), and in
the boolean-convention variant `play_turn` returns `false` with the
engine — board, winner, draw flag and current index — unchanged. -/
theorem terminal_locks (g : Game) (e : OEngine) :
    ((g.state = .WIN ∨ g.state = .DRAW) →
      ∀ row col : Int, apply_move g row col = .error .GameAlreadyOver) ∧
    ((e.winner ≠ none ∨ e.is_draw = true) →
      ∀ row col : Int, e.play_turn row col = (false, e)) := by
  constructor
  · intro hterm row col
    have hne : g.state ≠ .IN_PROGRESS := by
      rcases hterm with h | h <;> simp [h]
    simp [apply_move, hne]
  · intro hterm row col
    unfold OEngine.play_turn
    rw [if_pos]
    rcases hterm with h | h
    · exact Or.inl h
    · exact Or.inr (by simp [h])

set_option maxRecDepth 4000 in
theorem state_update_after_move_witness : afterFirstMove.state = .IN_PROGRESS :=
  (state_update_after_move freshGame afterFirstMove 0 0 (by decide)).2.2.1
    (by decide) (by decide)

theorem terminal_locks_witness :
    apply_move wonGame 0 0 = .error .GameAlreadyOver ∧
    OEngine.play_turn drawnEngine 0 0 = (false, drawnEngine) :=
  ⟨(terminal_locks wonGame drawnEngine).1 (Or.inl rfl) 0 0,
   (terminal_locks wonGame drawnEngine).2 (Or.inr rfl) 0 0⟩


theorem oMake_move_false (p : OPlayer) (g : Grid) (row col : Int) (b : Grid)
    (h : p.make_move g row col = (false, b)) : b = g := by
  unfold OPlayer.make_move OBoard.place_mark at h
  rcases hps : parseSymb p.symbol.str with _ | s <;> rw [hps] at h
  · simp at h
    exact h.symm
  · by_cases hcb : 0 ≤ row ∧ row < 3 ∧ 0 ≤ col ∧ col < 3
    · by_cases hocc : g (idx row) (idx col) = none
      · simp [hcb, hocc] at h
      · simp [hcb, hocc] at h
        exact h.symm
    · simp [hcb] at h
      exact h.symm

theorem oMake_move_true (p : OPlayer) (g : Grid) (row col : Int) (b : Grid)
    (h : p.make_move g row col = (true, b)) :
    (0 ≤ row ∧ row < 3 ∧ 0 ≤ col ∧ col < 3) ∧ g (idx row) (idx col) = none ∧
    b = updateGrid g (idx row) (idx col) (some p.symbol) := by
  unfold OPlayer.make_move OBoard.place_mark at h
  rw [parseSymb_str] at h
  by_cases hcb : 0 ≤ row ∧ row < 3 ∧ 0 ≤ col ∧ col < 3
  · by_cases hocc : g (idx row) (idx col) = none
    · simp [hcb, hocc] at h
      exact ⟨hcb, hocc, h.symm⟩
    · simp [hcb, hocc] at h
  · simp [hcb] at h


theorem swap_turn_fields (g : Game) :
    (swap_turn g).board = g.board ∧ (swap_turn g).players = g.players ∧
    (swap_turn g).state = g.state ∧ (swap_turn g).winner_symbol = g.winner_symbol ∧
    (swap_turn g).turn_idx = (if g.turn_idx = 0 then 1 else 0) := by
  simp [swap_turn]

/-- C4: the initial engine state has the X-holder active; a successful
non-terminal move flips the active index, a terminal move leaves it
unchanged, and a failed placement propagates its error with no state
change (the engine's player pair is never touched); likewise for the
boolean-convention engine, where a failed turn returns the engine
unchanged. -/
theorem turn_order (px po : Player) (b : Grid) (g0 g g' : Game) (row col : Int)
    (e : OEngine) (p1 p2 : OPlayer) :
    (Game.init px po b = .ok g0 → g0.turn_idx = 0 ∧ (current_player g0).symbol = .X) ∧
    (apply_move g row col = .ok g' →
      g'.players = g.players ∧
      (g'.state = .IN_PROGRESS → g'.turn_idx = (if g.turn_idx = 0 then 1 else 0)) ∧
      (g'.state ≠ .IN_PROGRESS → g'.turn_idx = g.turn_idx)) ∧
    (∀ err : Err, g.state = .IN_PROGRESS →
      (current_player g).make_move g.board row col = .error err →
      apply_move g row col = .error err) ∧
    ((OEngine.create p1 p2).current_index = 0 ∧
      (p1.symbol = .X → ((OEngine.create p1 p2).current_player).symbol = .X)) ∧
    (e.winner = none → e.is_draw = false →
      ∀ ok : Bool, ∀ e2 : OEngine, OEngine.play_turn e row col = (ok, e2) →
        e2.player_one = e.player_one ∧ e2.player_two = e.player_two ∧
        (ok = false → e2 = e) ∧
        (ok = true → ((e2.winner = none ∧ e2.is_draw = false →
            e2.current_index.val = 1 - e.current_index.val) ∧
          ((e2.winner ≠ none ∨ e2.is_draw = true) →
            e2.current_index = e.current_index)))) := by
  refine ⟨?_, ?_, ?_, ?_, ?_⟩
  · intro h
    unfold Game.init at h
    by_cases hsym : px.symbol = .X ∧ po.symbol = .O
    · rw [if_pos hsym] at h
      injection h with h
      subst h
      exact ⟨rfl, by simp [current_player, hsym.1]⟩
    · rw [if_neg hsym] at h
      cases h
  · intro h
    rcases apply_move_ok_decomp g row col g' h with ⟨hIP, bb, hm, hg'⟩
    rcases make_move_fields g bb with ⟨hb, hp, ht⟩
    by_cases hs : (update_state_after_move { g with board := bb }).state = .IN_PROGRESS
    · rw [if_pos hs] at hg'
      subst hg'
      rcases swap_turn_fields (update_state_after_move { g with board := bb }) with
        ⟨-, hp2, hs2, -, ht2⟩
      refine ⟨by rw [hp2, hp], ?_, ?_⟩
      · intro _
        rw [ht2, ht]
      · intro hcon
        exact absurd (hs2.trans hs) hcon
    · rw [if_neg hs] at hg'
      subst hg'
      exact ⟨hp, fun hcon => absurd hcon hs, fun _ => ht⟩
  · intro err hIP hm
    unfold apply_move
    simp only [hIP, ne_eq, not_true_eq_false, if_false, ite_false, hm]
    rfl
  · exact ⟨rfl, fun h => by simp [OEngine.create, OEngine.current_player, h]⟩
  · intro hw hd ok e2 h
    unfold OEngine.play_turn at h
    rw [if_neg (by simp [hw, hd])] at h
    rcases hm : (e.current_player).make_move e.board row col with ⟨mok, bb⟩
    rw [hm] at h
    cases mok
    · have hbb : bb = e.board := oMake_move_false _ _ _ _ _ hm
      subst hbb
      simp only [] at h
      injection h with h1 h2
      subst h1
      subst h2
      refine ⟨rfl, rfl, fun _ => rfl, ?_⟩
      intro hcon
      cases hcon
    · simp only [] at h
      by_cases hwin : check_winner bb (e.current_player).symbol = true
      · rw [if_pos hwin] at h
        injection h with h1 h2
        subst h1
        subst h2
        refine ⟨rfl, rfl, ?_, ?_⟩
        · intro hcon
          cases hcon
        · intro _
          refine ⟨?_, fun _ => rfl⟩
          rintro ⟨hco, -⟩
          simp at hco
      · rw [if_neg hwin] at h
        by_cases hfull : OBoard.is_full bb = true
        · rw [if_pos hfull] at h
          injection h with h1 h2
          subst h1
          subst h2
          refine ⟨rfl, rfl, ?_, ?_⟩
          · intro hcon
            cases hcon
          · intro _
            refine ⟨?_, fun _ => rfl⟩
            rintro ⟨-, hco⟩
            cases hco
        · rw [if_neg hfull] at h
          injection h with h1 h2
          subst h1
          subst h2
          refine ⟨rfl, rfl, ?_, ?_⟩
          · intro hcon
            cases hcon
          · intro _
            refine ⟨fun _ => rfl, ?_⟩
            rintro (hco | hco)
            · exact absurd hw hco
            · exact absurd hco (by simp [OEngine.swap_turn, hd])

theorem turn_order_witness :
    freshGame.turn_idx = 0 ∧ (current_player freshGame).symbol = .X :=
  (turn_order alice bob Board.new freshGame freshGame freshGame 0 0
    drawnEngine oAlice oBob).1 (by decide)


theorem char_toNat_inj (c d : Char) (h : c.toNat = d.toNat) : c = d := by
  rw [← Char.ofNat_toNat c, ← Char.ofNat_toNat d, h]

theorem isWhitespace_toUpper (c : Char) :
    (Char.toUpper c).isWhitespace = c.isWhitespace := by
  show (if c.toNat ≥ 97 ∧ c.toNat ≤ 122 then Char.ofNat (c.toNat - 32) else c).isWhitespace =
    c.isWhitespace
  by_cases h : c.toNat ≥ 97 ∧ c.toNat ≤ 122
  case pos =>
    rw [if_pos h]
    have hval : Nat.isValidChar (Char.toNat c - 32) := Or.inl (by omega)
    have htn : (Char.ofNat (Char.toNat c - 32)).toNat = Char.toNat c - 32 := by
      unfold Char.ofNat
      rw [dif_pos hval]
      rfl
    have hws : ∀ d : Char, 64 < d.toNat → d.isWhitespace = false := by
      intro d hd
      unfold Char.isWhitespace
      simp only [Bool.or_eq_false_iff, decide_eq_false_iff_not]
      have hne : ∀ w : Char, w.toNat < 64 → d ≠ w := by
        intro w hw hdw
        subst hdw
        omega
      exact ⟨⟨⟨hne ' ' (by decide), hne '\t' (by decide)⟩, hne '\r' (by decide)⟩,
        hne '\n' (by decide)⟩
    rw [hws _ (by rw [htn]; omega), hws c (by omega)]
  case neg =>
    rw [if_neg h]

theorem pyStrip_pyUpper_comm (s : List Char) :
    pyStrip (pyUpper s) = pyUpper (pyStrip s) := by
  have hdw : ∀ l : List Char, (l.map Char.toUpper).dropWhile Char.isWhitespace =
      (l.dropWhile Char.isWhitespace).map Char.toUpper := by
    intro l
    rw [List.dropWhile_map]
    have hcomp : Char.isWhitespace ∘ Char.toUpper = Char.isWhitespace :=
      funext isWhitespace_toUpper
    rw [hcomp]
  unfold pyStrip pyUpper
  rw [hdw s, ← List.map_reverse, hdw, ← List.map_reverse]

/-- C10: `Player.__init__` normalizes the symbol by trimming surrounding
whitespace and upper-casing (the two normalizations commute, so the
code's upper-then-strip order equals the claim's trim-then-upper form):
construction succeeds with the normalized `"X"`/`"O"` exactly when the
normalized form is one of them, and raises `InvalidSymbol` otherwise. -/
theorem player_init_normalization (name : String) (s : List Char) :
    pyStrip (pyUpper s) = pyUpper (pyStrip s) ∧
    (pyUpper (pyStrip s) = ['X'] → Player.init name s = .ok ⟨name, .X⟩) ∧
    (pyUpper (pyStrip s) = ['O'] → Player.init name s = .ok ⟨name, .O⟩) ∧
    (∀ p, Player.init name s = .ok p →
      p.name = name ∧ p.symbol.str.data = pyUpper (pyStrip s)) ∧
    (pyUpper (pyStrip s) ≠ ['X'] → pyUpper (pyStrip s) ≠ ['O'] →
      Player.init name s = .error .InvalidSymbol) := by
  have hcomm := pyStrip_pyUpper_comm s
  refine ⟨hcomm, ?_, ?_, ?_, ?_⟩
  · intro h
    unfold Player.init
    rw [hcomm, h]
    rfl
  · intro h
    unfold Player.init
    rw [hcomm, h]
    rfl
  · intro p hp
    unfold Player.init at hp
    rw [hcomm] at hp
    by_cases hx : pyUpper (pyStrip s) = ['X']
    · rw [hx] at hp
      have hp2 : (Except.ok ⟨name, Symb.X⟩ : Except Err Player) = .ok p := hp
      injection hp2 with hp2
      subst hp2
      exact ⟨rfl, by rw [hx]; rfl⟩
    · by_cases ho : pyUpper (pyStrip s) = ['O']
      · rw [ho] at hp
        have hp2 : (Except.ok ⟨name, Symb.O⟩ : Except Err Player) = .ok p := hp
        injection hp2 with hp2
        subst hp2
        exact ⟨rfl, by rw [ho]; rfl⟩
      · have hnone : parseSymbChars (pyUpper (pyStrip s)) = none := by
          unfold parseSymbChars
          rw [if_neg hx, if_neg ho]
        rw [hnone] at hp
        cases hp
  · intro hx ho
    unfold Player.init
    rw [hcomm]
    have hnone : parseSymbChars (pyUpper (pyStrip s)) = none := by
      unfold parseSymbChars
      rw [if_neg hx, if_neg ho]
    rw [hnone]

theorem player_init_normalization_witness :
    Player.init "Eve" (" x ".data) = .ok ⟨"Eve", .X⟩ :=
  (player_init_normalization "Eve" (" x ".data)).2.1 (by decide)


/-- C5 counterexample: the one-script `GameEngine` dataclass performs no
pair validation, so constructing an engine from two players that both
hold `"X"` succeeds — each player individually validates, the engine is
a plain record, and it even plays turns — rather than failing with
`InvalidPlayerSetup`. -/
theorem engine_accepts_two_X_players :
    OPlayer.create "Carol" "X" = .ok ⟨"Carol", .X⟩ ∧
    OPlayer.create "Dan" "X" = .ok ⟨"Dan", .X⟩ ∧
    OEngine.create ⟨"Carol", .X⟩ ⟨"Dan", .X⟩ =
      ⟨⟨"Carol", .X⟩, ⟨"Dan", .X⟩, Board.new, 0, none, false⟩ ∧
    (OEngine.play_turn (OEngine.create ⟨"Carol", .X⟩ ⟨"Dan", .X⟩) 0 0).1 = true := by
  refine ⟨by decide, by decide, by decide, by decide⟩

/-- C5 amended: in the multi-file variant, engine construction succeeds
exactly when `player_x` holds X and `player_o` holds O, and fails with
`InvalidPlayerSetup` otherwise — in particular for two X-holders. The
one-script `GameEngine` performs no such validation. -/
theorem game_init_validation (px po : Player) (b : Grid) :
    ((∃ g, Game.init px po b = .ok g) ↔ (px.symbol = .X ∧ po.symbol = .O)) ∧
    (¬(px.symbol = .X ∧ po.symbol = .O) →
      Game.init px po b = .error .InvalidPlayerSetup) ∧
    (px.symbol = .X → po.symbol = .X →
      Game.init px po b = .error .InvalidPlayerSetup) := by
  by_cases h : px.symbol = .X ∧ po.symbol = .O
  · unfold Game.init
    rw [if_pos h]
    refine ⟨⟨fun _ => h, fun _ => ⟨_, rfl⟩⟩, fun hc => absurd h hc, ?_⟩
    intro _ ho
    rw [h.2] at ho
    exact absurd ho (by decide)
  · unfold Game.init
    rw [if_neg h]
    refine ⟨⟨?_, fun hc => absurd hc h⟩, fun _ => rfl, fun _ _ => rfl⟩
    rintro ⟨g, hg⟩
    cases hg

theorem game_init_validation_witness :
    Game.init carol dan Board.new = .error .InvalidPlayerSetup :=
  (game_init_validation carol dan Board.new).2.2 rfl rfl

theorem reset_eq_new (g : Grid) : Board.reset g = Board.new := by
  have h3 : List.finRange 3 = [0, 1, 2] := by decide
  funext r c
  fin_cases r <;> fin_cases c <;>
    simp [Board.reset, h3, updateGrid, Board.new]

/-- C7: a reset board equals a freshly constructed one in every
observable (cells, `available_moves`, `is_full`, rendering), and the
engine's reset gives `IN_PROGRESS`, an all-empty board, no winner
symbol, and the first player (the X-holder when constructed normally)
as the active player. -/
theorem reset_spec (g : Grid) (game : Game) :
    Board.reset g = Board.new ∧
    (∀ r c : Fin 3, Board.reset g r c = Board.new r c) ∧
    available_moves (Board.reset g) = available_moves Board.new ∧
    is_full (Board.reset g) = is_full Board.new ∧
    renderBoard (Board.reset g) = renderBoard Board.new ∧
    (Game.reset game).state = .IN_PROGRESS ∧
    (Game.reset game).board = Board.new ∧
    (Game.reset game).winner_symbol = none ∧
    (Game.reset game).turn_idx = 0 ∧
    current_player (Game.reset game) = game.players.1 ∧
    (game.players.1.symbol = .X → (current_player (Game.reset game)).symbol = .X) := by
  have h := reset_eq_new g
  refine ⟨h, fun r c => by rw [h], by rw [h], by rw [h], by rw [h], rfl, ?_, rfl, rfl, ?_, ?_⟩
  · exact reset_eq_new game.board
  · simp [current_player, Game.reset]
  · intro hx
    simp [current_player, Game.reset, hx]

theorem reset_spec_witness :
    (current_player (Game.reset wonGame)).symbol = .X :=
  ((reset_spec Board.new wonGame).2.2.2.2.2.2.2.2.2.2) rfl

theorem mem_computer_available (g : Grid) (p : Fin 3 × Fin 3) :
    p ∈ computer_available g ↔ g p.1 p.2 = none := by
  unfold computer_available
  simp only [List.mem_flatMap, List.mem_filterMap, List.mem_finRange, true_and]
  constructor
  · rintro ⟨r, c, hc⟩
    by_cases h : g r c = none
    · rw [if_pos h] at hc
      injection hc with hc
      subst hc
      exact h
    · rw [if_neg h] at hc
      cases hc
  · intro h
    exact ⟨p.1, p.2, by rw [if_pos h]⟩

/-- C8: with at least one empty cell, the computer player's choice (for
every possible random draw `k`) is an empty cell and no error is
raised; with no empty cell it raises `NoMovesAvailable`. -/
theorem choose_move_spec (g : Grid) (k : Nat) :
    ((∃ p : Fin 3 × Fin 3, g p.1 p.2 = none) →
      ∃ p : Fin 3 × Fin 3, choose_move g k = .ok p ∧ g p.1 p.2 = none) ∧
    ((∀ p : Fin 3 × Fin 3, g p.1 p.2 ≠ none) →
      choose_move g k = .error .NoMovesAvailable) := by
  constructor
  · rintro ⟨p, hp⟩
    have hmem : p ∈ computer_available g := (mem_computer_available g p).mpr hp
    have hne : computer_available g ≠ [] := List.ne_nil_of_mem hmem
    unfold choose_move
    rw [dif_neg hne]
    exact ⟨_, rfl, (mem_computer_available g _).mp (List.get_mem _ _ _)⟩
  · intro hfull
    have hnil : computer_available g = [] := by
      rw [List.eq_nil_iff_forall_not_mem]
      intro p hp
      exact hfull p ((mem_computer_available g p).mp hp)
    unfold choose_move
    rw [dif_pos hnil]

theorem choose_move_spec_witness :
    choose_move fullGrid 0 = .error .NoMovesAvailable :=
  (choose_move_spec fullGrid 0).2 (by decide)

theorem uniform_after_update (g : Grid) (rc : Fin 3 × Fin 3) (sym : Symb)
    (hnone : find_winner_symbol g = none)
    (l : (Fin 3 × Fin 3) × (Fin 3 × Fin 3) × (Fin 3 × Fin 3)) (hl : l ∈ WIN_LINES)
    (s : Symb) (hu : uniformLine (updateGrid g rc.1 rc.2 (some sym)) l s) : s = sym := by
  by_cases hc : l.1 = rc ∨ l.2.1 = rc ∨ l.2.2 = rc
  · rcases hu with ⟨h1, h2, h3⟩
    rcases hc with hc | hc | hc
    · rw [hc] at h1
      rw [updateGrid_self] at h1
      injection h1 with h1
      exact h1.symm
    · rw [hc] at h2
      rw [updateGrid_self] at h2
      injection h2 with h2
      exact h2.symm
    · rw [hc] at h3
      rw [updateGrid_self] at h3
      injection h3 with h3
      exact h3.symm
  · push_neg at hc
    rcases hc with ⟨hc1, hc2, hc3⟩
    have e1 : updateGrid g rc.1 rc.2 (some sym) l.1.1 l.1.2 = g l.1.1 l.1.2 :=
      updateGrid_ne _ _ _ _ _ _ (fun hh => hc1 (Prod.ext_iff.mpr ⟨hh.1, hh.2⟩))
    have e2 : updateGrid g rc.1 rc.2 (some sym) l.2.1.1 l.2.1.2 = g l.2.1.1 l.2.1.2 :=
      updateGrid_ne _ _ _ _ _ _ (fun hh => hc2 (Prod.ext_iff.mpr ⟨hh.1, hh.2⟩))
    have e3 : updateGrid g rc.1 rc.2 (some sym) l.2.2.1 l.2.2.2 = g l.2.2.1 l.2.2.2 :=
      updateGrid_ne _ _ _ _ _ _ (fun hh => hc3 (Prod.ext_iff.mpr ⟨hh.1, hh.2⟩))
    rcases hu with ⟨h1, h2, h3⟩
    have hug : uniformLine g l s := ⟨e1 ▸ h1, e2 ▸ h2, e3 ▸ h3⟩
    rcases find_winner_isSome g l s hl hug with ⟨s', hs'⟩
    rw [hnone] at hs'
    cases hs'

theorem reachable_invariant (g : Game) (h : Reachable g) :
    (g.state = .IN_PROGRESS → find_winner_symbol g.board = none) ∧
    (g.state = .WIN → g.winner_symbol = some (current_player g).symbol) := by
  induction h with
  | init px po g0 hinit =>
    unfold Game.init at hinit
    by_cases hsym : px.symbol = .X ∧ po.symbol = .O
    · rw [if_pos hsym] at hinit
      injection hinit with hinit
      subst hinit
      refine ⟨fun _ => ?_, fun hc => by simp at hc⟩
      exact (by decide : find_winner_symbol Board.new = none)
    · rw [if_neg hsym] at hinit
      cases hinit
  | step g row col g' hreach hmove ih =>
    rcases apply_move_ok_decomp g row col g' hmove with ⟨hIP, b, hm, hg'⟩
    have hnone : find_winner_symbol g.board = none := ih.1 hIP
    unfold Player.make_move at hm
    rcases (place_mark_ok_iff g.board row col (current_player g).symbol.str b).mp hm with
      ⟨hcoords, -, hempty, hbe⟩
    rw [parseSymb_str] at hbe
    rcases hw : find_winner_symbol b with _ | w
    · by_cases hf : is_full b = true
      · have hg2 : update_state_after_move { g with board := b } =
            { g with board := b, state := .DRAW } := by
          simp [update_state_after_move, hw, hf]
        rw [hg2] at hg'
        have hg'' : g' = { g with board := b, state := .DRAW } := by
          rw [hg']
          simp
        subst hg''
        exact ⟨fun hc => by simp at hc, fun hc => by simp at hc⟩
      · have hg2 : update_state_after_move { g with board := b } =
            { g with board := b } := by
          simp [update_state_after_move, hw, hf]
        rw [hg2] at hg'
        have hg'' : g' = swap_turn { g with board := b } := by
          rw [hg']
          simp [hIP]
        subst hg''
        constructor
        · intro _
          exact hw
        · intro hc
          have hc2 : g.state = .WIN := hc
          rw [hIP] at hc2
          cases hc2
    · have hg2 : update_state_after_move { g with board := b } =
          { g with board := b, state := .WIN, winner_symbol := some w } := by
        simp [update_state_after_move, hw]
      rw [hg2] at hg'
      have hg'' : g' = { g with board := b, state := .WIN, winner_symbol := some w } := by
        rw [hg']
        simp
      subst hg''
      constructor
      · intro hc
        simp at hc
      · intro _
        rw [hbe] at hw
        rcases find_winner_mem _ w hw with ⟨l, hl, hu⟩
        have hwsym : w = (current_player g).symbol :=
          uniform_after_update g.board (idx row, idx col) (current_player g).symbol
            hnone l hl w hu
        show some w = some (current_player g).symbol
        rw [hwsym]

/-- C9: in every engine state reachable from a fresh engine by
`apply_move` calls, a `WIN` state records the active player's symbol as
the winning symbol — the turn is not advanced on the winning move. -/
theorem win_implies_current_is_winner (g : Game) (h : Reachable g)
    (hw : g.state = .WIN) : g.winner_symbol = some (current_player g).symbol :=
  (reachable_invariant g h).2 hw

set_option maxRecDepth 8000 in
theorem win_implies_current_is_winner_witness :
    demoWon.winner_symbol = some (current_player demoWon).symbol :=
  win_implies_current_is_winner demoWon
    (Reachable.step demoG4 0 2 demoWon
      (Reachable.step demoG3 1 1 demoG4
        (Reachable.step demoG2 0 1 demoG3
          (Reachable.step afterFirstMove 1 0 demoG2
            (Reachable.step freshGame 0 0 afterFirstMove
              (Reachable.init alice bob freshGame (by decide))
              (by decide))
            (by decide))
          (by decide))
        (by decide))
      (by decide))
    (by decide)

end TTT
